import Mathlib

/-!
# Verification of the stu navigation/session core

A shallow embedding of the navigation/session core of a terminal client for a
hierarchical remote object store (bucket → prefixes → objects), together with
proofs about its page-stack state machine, cache population policy, filtering
invariants and progress reporting.

Embedding conventions:
* pure Rust functions become Lean functions; `&mut self` methods become
  functions `State → State`;
* the event channel (`tx.send`) is modelled by returning the list of emitted
  events next to the new state;
* background tasks and the external client are out of scope: completion
  handlers take the task's `Result` as an argument (`Except`);
* fallible collaborators (config path resolution, log writing) are passed in
  as `Except` results; a Rust `unwrap` on a failure becomes an explicit
  `ProcOutcome.panicked` (process termination);
* `usize` becomes `Nat`; Rust's saturating-free `usize` subtraction only
  occurs here in positions where the source cannot underflow, so `Nat`
  truncated subtraction agrees with it.
-/

set_option maxHeartbeats 1000000

/-- A semantic key event, abstracting the terminal framework's key event:
the cases distinguished by the page key handlers. -/
inductive Key where
  | esc
  | enter
  | backspace
  | char (c : Char)
  | other
deriving DecidableEq, Repr

/-- The app-level events sent on the event channel (`tx.send`), restricted to
the constructors emitted by the embedded operations. -/
inductive AppEventType where
  | quit
  | openHelp
  | bucketListMoveDown
  | bucketListOpenManagementConsole
  | loadObjects
  | loadObject
  | notifyError (msg : String)
deriving DecidableEq, Repr

/-- One bucket (src: `object::BucketItem`). -/
structure BucketItem where
  name : String
deriving DecidableEq, Repr

/-- One child of a listing (src: `object::ObjectItem`). Fields not used by the
embedded operations (timestamps, ancestor paths) are omitted. -/
inductive ObjectItem where
  | dir (name : String)
  | file (name : String) (sizeByte : Nat)
deriving DecidableEq, Repr

def ObjectItem.name : ObjectItem → String
  | .dir n => n
  | .file n _ => n

/-- Extended metadata of one object (src: `object::FileDetail`); the display
strings not used by the embedded operations are omitted. -/
structure FileDetail where
  name : String
  sizeByte : Nat
deriving DecidableEq, Repr

/-- One version of an object (src: `object::FileVersion`). -/
structure FileVersion where
  versionId : String
  sizeByte : Nat
  isLatest : Bool
deriving DecidableEq, Repr

/-- A navigation key: bucket name plus path segments (src: `object::ObjectKey`). -/
structure ObjectKey where
  bucketName : String
  objectPath : List String
deriving DecidableEq, Repr

/-- An application error; opaque message (src: `error::AppError`). -/
structure AppError where
  msg : String
deriving DecidableEq, Repr

/-- The single-slot notification state (src: `app::Notification`). -/
inductive Notification where
  | none
  | info (msg : String)
  | success (msg : String)
  | error (msg : String)
deriving DecidableEq, Repr

/-- Rust `str::contains` (substring test), on the underlying character lists. -/
def strContains (haystack needle : String) : Bool :=
  decide (needle.toList <:+: haystack.toList)

/-- Modelled from the spec: the widget `ScrollListState` is re-exported by
src/widget.rs but its module is not under src/. Per §3 each page owns its
selection sub-state; `new` starts with the first item selected (the renders
asserted by the tests in src/src/pages/bucket_list.rs show selection starting
at index 0). Selection wraps at the ends; page moves jump by the stored view
height, clamped to the range. Only `new` and the bound `selected < total` are
relied on by the theorems below. -/
structure ScrollListState where
  selected : Nat
  offset : Nat
  total : Nat
  height : Nat
deriving DecidableEq, Repr

def ScrollListState.new (total : Nat) : ScrollListState :=
  { selected := 0, offset := 0, total := total, height := 0 }

def ScrollListState.select_next (s : ScrollListState) : ScrollListState :=
  if s.total = 0 then s
  else if s.selected + 1 ≥ s.total then { s with selected := 0, offset := 0 }
  else { s with selected := s.selected + 1 }

def ScrollListState.select_prev (s : ScrollListState) : ScrollListState :=
  if s.total = 0 then s
  else if s.selected = 0 then { s with selected := s.total - 1 }
  else { s with selected := s.selected - 1 }

def ScrollListState.select_first (s : ScrollListState) : ScrollListState :=
  { s with selected := 0, offset := 0 }

def ScrollListState.select_last (s : ScrollListState) : ScrollListState :=
  { s with selected := s.total - 1 }

def ScrollListState.select_next_page (s : ScrollListState) : ScrollListState :=
  if s.total = 0 then s
  else { s with selected := min (s.selected + s.height) (s.total - 1) }

def ScrollListState.select_prev_page (s : ScrollListState) : ScrollListState :=
  { s with selected := s.selected - s.height }

/-- Modelled from the spec: the widget `InputDialogState` is re-exported by
src/widget.rs but its module is not under src/. Its observable behavior is
fixed by the filter tests in src/src/pages/bucket_list.rs: a printable
character appends to the input, Backspace deletes the last character, other
keys leave it unchanged; `clear_input` empties it. The cursor position is not
modelled. -/
structure InputDialogState where
  input : List Char
deriving DecidableEq, Repr

def InputDialogState.handle_key_event (s : InputDialogState) (k : Key) : InputDialogState :=
  match k with
  | .char c => { input := s.input ++ [c] }
  | .backspace => { input := s.input.dropLast }
  | _ => s

def InputDialogState.clear_input (_ : InputDialogState) : InputDialogState :=
  { input := [] }

/-- The indices into `items` whose name contains `input`, in order
(src: `BucketListPage::update_filtered_indices`, the enumerate/filter/map). -/
def filterIndices (items : List BucketItem) (input : List Char) : List Nat :=
  ((items.enum.filter fun p => strContains p.2.name ⟨input⟩).map fun p => p.1)

/-- The view state of the bucket list page (src: `bucket_list::ViewState`). -/
inductive BLViewState where
  | default
  | filterDialog
deriving DecidableEq, Repr

/-- src: `BucketListPage`. -/
structure BucketListPage where
  bucketItems : List BucketItem
  filteredIndices : List Nat
  viewState : BLViewState
  listState : ScrollListState
  filterInputState : InputDialogState
deriving DecidableEq, Repr

/-- src: `BucketListPage::new`. -/
def BucketListPage.new (bucketItems : List BucketItem) : BucketListPage :=
  { bucketItems := bucketItems
    filteredIndices := List.range bucketItems.length
    viewState := BLViewState.default
    listState := ScrollListState.new bucketItems.length
    filterInputState := { input := [] } }

/-- src: `BucketListPage::update_filtered_indices` (recomputes the indices and
resets the list state to a fresh one over the filtered length). -/
def BucketListPage.update_filtered_indices (p : BucketListPage) : BucketListPage :=
  let fi := filterIndices p.bucketItems p.filterInputState.input
  { p with filteredIndices := fi, listState := ScrollListState.new fi.length }

/-- src: `BucketListPage::reset_filter`. -/
def BucketListPage.reset_filter (p : BucketListPage) : BucketListPage :=
  BucketListPage.update_filtered_indices
    { p with filterInputState := p.filterInputState.clear_input }

/-- src: `BucketListPage::close_filter_dialog`. -/
def BucketListPage.close_filter_dialog (p : BucketListPage) : BucketListPage :=
  BucketListPage.reset_filter { p with viewState := BLViewState.default }

/-- src: `BucketListPage::apply_filter`. -/
def BucketListPage.apply_filter (p : BucketListPage) : BucketListPage :=
  BucketListPage.update_filtered_indices { p with viewState := BLViewState.default }

/-- src: `BucketListPage::non_empty`. -/
def BucketListPage.non_empty (p : BucketListPage) : Bool :=
  !p.filteredIndices.isEmpty

/-- src: `BucketListPage::current_selected_item` — the selected filtered index
resolved through `bucket_items`; the source panics on an out-of-range
selection, modelled by `Option.none`. -/
def BucketListPage.current_selected_item? (p : BucketListPage) : Option BucketItem :=
  (p.filteredIndices[p.listState.selected]?).bind fun i => p.bucketItems[i]?

/-- The character dispatch of the `ViewState::Default` arm of
`BucketListPage::handle_key` (split out so the guard chain is one
definition). -/
def BucketListPage.handle_key_default_char (p : BucketListPage) (c : Char) :
    BucketListPage × List AppEventType :=
  if c = 'q' then (p, [AppEventType.quit])
  else if c = 'l' then
    if p.non_empty then (p, [AppEventType.bucketListMoveDown]) else (p, [])
  else if c = 'j' then
    if p.non_empty then ({ p with listState := p.listState.select_next }, []) else (p, [])
  else if c = 'k' then
    if p.non_empty then ({ p with listState := p.listState.select_prev }, []) else (p, [])
  else if c = 'g' then
    if p.non_empty then ({ p with listState := p.listState.select_first }, []) else (p, [])
  else if c = 'G' then
    if p.non_empty then ({ p with listState := p.listState.select_last }, []) else (p, [])
  else if c = 'f' then
    if p.non_empty then ({ p with listState := p.listState.select_next_page }, []) else (p, [])
  else if c = 'b' then
    if p.non_empty then ({ p with listState := p.listState.select_prev_page }, []) else (p, [])
  else if c = 'x' then
    if p.non_empty then (p, [AppEventType.bucketListOpenManagementConsole]) else (p, [])
  else if c = '/' then ({ p with viewState := BLViewState.filterDialog }, [])
  else if c = '?' then (p, [AppEventType.openHelp])
  else (p, [])

/-- The `ViewState::Default` arm of `BucketListPage::handle_key` (split out
so that each match arm is its own definition). -/
def BucketListPage.handle_key_default (p : BucketListPage) (k : Key) :
    BucketListPage × List AppEventType :=
  match k with
  | .esc =>
    if p.filterInputState.input ≠ [] then (p.reset_filter, []) else (p, [])
  | .char c => p.handle_key_default_char c
  | _ => (p, [])

/-- The `ViewState::FilterDialog` arm of `BucketListPage::handle_key`. -/
def BucketListPage.handle_key_filter (p : BucketListPage) (k : Key) :
    BucketListPage × List AppEventType :=
  match k with
  | .esc => (p.close_filter_dialog, [])
  | .enter => (p.apply_filter, [])
  | .char c =>
    if c = '?' then (p, [AppEventType.openHelp])
    else
      (BucketListPage.update_filtered_indices
        { p with filterInputState := p.filterInputState.handle_key_event (Key.char c) }, [])
  | k' =>
    (BucketListPage.update_filtered_indices
      { p with filterInputState := p.filterInputState.handle_key_event k' }, [])

/-- src: `BucketListPage::handle_key`; the sent events are returned. -/
def BucketListPage.handle_key (p : BucketListPage) (k : Key) :
    BucketListPage × List AppEventType :=
  match p.viewState with
  | BLViewState.default => p.handle_key_default k
  | BLViewState.filterDialog => p.handle_key_filter k

/-- Iterated key handling (the page component of `handle_key`). -/
def BucketListPage.apply_keys (p : BucketListPage) (keys : List Key) : BucketListPage :=
  keys.foldl (fun q k => (q.handle_key k).1) p

/-- The version-panel line blocks (src: `object_detail::build_help_lines`):
each version renders as a block of exactly 3 lines. Only the line counts feed
the selection logic, so a block is modelled by its line count. -/
def build_help_lines (versions : List FileVersion) : List Nat :=
  versions.map fun _ => 3

/-- src: `object_detail::VersionTabState`. `help_lines` holds the per-version
line counts (see `build_help_lines`); `height` is updated by the renderer and
starts at its `Default` of 0. -/
structure VersionTabState where
  helpLines : List Nat
  selected : Nat
  offset : Nat
  height : Nat
deriving DecidableEq, Repr

/-- src: `VersionTabState::new` (the remaining fields use `Default`). -/
def VersionTabState.new (versions : List FileVersion) : VersionTabState :=
  { helpLines := build_help_lines versions, selected := 0, offset := 0, height := 0 }

/-- src: `VersionTabState::select_next`. -/
def VersionTabState.select_next (s : VersionTabState) : VersionTabState :=
  if s.selected ≥ s.helpLines.length - 1 then s
  else
    let selected := s.selected + 1
    let totalHeight :=
      ((s.helpLines.drop s.offset).take (selected - s.offset + 1)).foldl
        (fun acc n => acc + n + 1) 0
    if totalHeight > s.height then { s with selected := selected, offset := s.offset + 1 }
    else { s with selected := selected }

/-- src: `VersionTabState::select_prev`. -/
def VersionTabState.select_prev (s : VersionTabState) : VersionTabState :=
  if s.selected = 0 then s
  else
    let selected := s.selected - 1
    if selected < s.offset then { s with selected := selected, offset := s.offset - 1 }
    else { s with selected := selected }

/-- src: `VersionTabState::select_first`. -/
def VersionTabState.select_first (s : VersionTabState) : VersionTabState :=
  { s with selected := 0, offset := 0 }

/-- The reversed-enumeration loop of `VersionTabState::select_last`: walks the
`(index, line count)` pairs from the last block backwards accumulating heights;
on an exact fit the offset is that index, on overflow one past it; if the loop
finishes without a break the offset keeps its old value. -/
def select_last_offset : List (Nat × Nat) → Nat → Nat → Nat → Nat
  | [], _, _, old => old
  | (i, n) :: rest, height, acc, old =>
    if acc + n + 1 = height then i
    else if acc + n + 1 > height then i + 1
    else select_last_offset rest height (acc + n + 1) old

/-- src: `VersionTabState::select_last`. -/
def VersionTabState.select_last (s : VersionTabState) : VersionTabState :=
  { s with
    selected := s.helpLines.length - 1
    offset := select_last_offset s.helpLines.enum.reverse s.height 0 s.offset }

/-- The tab of the object detail page (src: `object_detail::Tab`). -/
inductive Tab where
  | detail
  | version
deriving DecidableEq, Repr

/-- src: `ObjectDetailPage`. The detail-tab scroll state and the dialog view
state are not modelled (no embedded operation reads them). -/
structure ObjectDetailPage where
  fileDetail : FileDetail
  fileVersions : List FileVersion
  tab : Tab
  objectItems : List ObjectItem
  listState : ScrollListState
  versionTabState : VersionTabState
deriving DecidableEq, Repr

/-- src: `ObjectDetailPage::new` (tab starts at `Detail`). -/
def ObjectDetailPage.new (fileDetail : FileDetail) (fileVersions : List FileVersion)
    (objectItems : List ObjectItem) (listState : ScrollListState) : ObjectDetailPage :=
  { fileDetail := fileDetail
    fileVersions := fileVersions
    tab := Tab.detail
    objectItems := objectItems
    listState := listState
    versionTabState := VersionTabState.new fileVersions }

/-- src: `ObjectDetailPage::current_selected_version_id`. -/
def ObjectDetailPage.current_selected_version_id (p : ObjectDetailPage) : Option String :=
  match p.tab with
  | Tab.detail => Option.none
  | Tab.version => (p.fileVersions[p.versionTabState.selected]?).map fun v => v.versionId

/-- The version-selection operations reachable from `handle_key` on the
Version tab (j/k/g/G). -/
inductive VOp where
  | next
  | prev
  | first
  | last
deriving DecidableEq, Repr

def VersionTabState.apply_op (s : VersionTabState) : VOp → VersionTabState
  | VOp.next => s.select_next
  | VOp.prev => s.select_prev
  | VOp.first => s.select_first
  | VOp.last => s.select_last

def VersionTabState.apply_ops (s : VersionTabState) (ops : List VOp) : VersionTabState :=
  ops.foldl VersionTabState.apply_op s

/-- Modelled from the spec: `ObjectListPage` (src/pages/object_list.rs is not
under src/). §3: `ObjectList{items, selection, parent key}` — the page holds
its listing and a selection; the selected entry is the item at the selection
index. -/
structure ObjectListPage where
  items : List ObjectItem
  listState : ScrollListState
deriving DecidableEq, Repr

def ObjectListPage.new (items : List ObjectItem) : ObjectListPage :=
  { items := items, listState := ScrollListState.new items.length }

def ObjectListPage.current_selected_item? (p : ObjectListPage) : Option ObjectItem :=
  p.items[p.listState.selected]?

/-- One page of the stack (src: `pages::page::Page`, variants per §3). The
preview and help pages carry state irrelevant to the embedded operations. -/
inductive Page where
  | initializing
  | bucketList (p : BucketListPage)
  | objectList (p : ObjectListPage)
  | objectDetail (p : ObjectDetailPage)
  | objectPreview
  | help
deriving DecidableEq, Repr

/-- Modelled from the spec: `AppObjects` (src/object.rs is not under src/).
§4.3: two mappings keyed by `NavigationKey` plus the single bucket-list slot;
`set_*` is an idempotent overwrite; lookups fail (here: `Option`/default)
when the key is absent. Maps are association lists where an overwrite
prepends and lookup returns the newest binding. -/
structure AppObjects where
  bucketItems : List BucketItem
  objectItems : List (ObjectKey × List ObjectItem)
  objectDetails : List (ObjectKey × (FileDetail × List FileVersion))
deriving DecidableEq, Repr

def AppObjects.new : AppObjects :=
  { bucketItems := [], objectItems := [], objectDetails := [] }

def assocFind? {β : Type} (l : List (ObjectKey × β)) (k : ObjectKey) : Option β :=
  (l.find? fun p => p.1 == k).map fun p => p.2

def AppObjects.get_bucket_items (c : AppObjects) : List BucketItem :=
  c.bucketItems

def AppObjects.set_bucket_items (c : AppObjects) (items : List BucketItem) : AppObjects :=
  { c with bucketItems := items }

def AppObjects.exists_object_item (c : AppObjects) (k : ObjectKey) : Bool :=
  (assocFind? c.objectItems k).isSome

def AppObjects.get_object_items (c : AppObjects) (k : ObjectKey) : List ObjectItem :=
  (assocFind? c.objectItems k).getD []

def AppObjects.set_object_items (c : AppObjects) (k : ObjectKey) (items : List ObjectItem) :
    AppObjects :=
  { c with objectItems := (k, items) :: c.objectItems }

def AppObjects.exists_object_details (c : AppObjects) (k : ObjectKey) : Bool :=
  (assocFind? c.objectDetails k).isSome

def AppObjects.get_object_detail (c : AppObjects) (k : ObjectKey) : Option FileDetail :=
  (assocFind? c.objectDetails k).map fun p => p.1

def AppObjects.get_object_versions (c : AppObjects) (k : ObjectKey) : Option (List FileVersion) :=
  (assocFind? c.objectDetails k).map fun p => p.2

def AppObjects.set_object_details (c : AppObjects) (k : ObjectKey) (d : FileDetail)
    (vs : List FileVersion) : AppObjects :=
  { c with objectDetails := (k, (d, vs)) :: c.objectDetails }

/-- src: `app::AppViewState`. -/
structure AppViewState where
  notification : Notification
  isLoading : Bool
  width : Nat
  height : Nat
deriving DecidableEq, Repr

def AppViewState.new (width height : Nat) : AppViewState :=
  { notification := Notification.none, isLoading := true, width := width, height := height }

/-- src: `app::App`. The client handle and config are external collaborators:
the completion handlers take the remote results as arguments, and the
fallible config/log collaborators are passed to `error_notification`. The
persistent error log (§6) is carried in-state as the list of appended
messages. The page stack is the list of pages with index 0 the bottom and the
last element the top (§4.1: only push/pop/peek/mutate-top). -/
structure App where
  appViewState : AppViewState
  pageStack : List Page
  appObjects : AppObjects
  errorLog : List String
deriving DecidableEq, Repr

/-- src: `App::new` — the stack starts with the Initializing page. -/
def App.mk_new (width height : Nat) : App :=
  { appViewState := AppViewState.new width height
    pageStack := [Page.initializing]
    appObjects := AppObjects.new
    errorLog := [] }

/-- Modelled from the spec: `PageStack::current_page` (top of the stack,
src/pages/page.rs is not under src/); the stack is a plain vector, so the top
is the last element. -/
def App.current_page? (app : App) : Option Page :=
  app.pageStack.getLast?

/-- src: `App::current_bucket` — the bottom page must be the bucket list and
its selection valid; the source panics otherwise, modelled by `""`. -/
def App.current_bucket (app : App) : String :=
  match app.pageStack.head? with
  | some (Page.bucketList p) =>
    match p.current_selected_item? with
    | some item => item.name
    | none => ""
  | _ => ""

/-- src: `App::current_path` — for each ObjectList page bottom-to-top, the
name of its selected entry when that entry is a Dir. -/
def App.current_path (app : App) : List String :=
  app.pageStack.filterMap fun page =>
    match page with
    | Page.objectList p =>
      match p.current_selected_item? with
      | some (ObjectItem.dir name) => some name
      | _ => none
    | _ => none

/-- src: `App::current_object_prefix` — each path segment followed by `/`. -/
def App.current_object_prefix_str (app : App) : String :=
  app.current_path.foldl (fun acc s => acc ++ s ++ "/") ""

/-- src: `App::current_object_key`. -/
def App.current_object_key (app : App) : ObjectKey :=
  { bucketName := app.current_bucket, objectPath := app.current_path }

/-- src: `App::current_object_key_with_name`. -/
def App.current_object_key_with_name (app : App) (name : String) : ObjectKey :=
  { bucketName := app.current_bucket, objectPath := app.current_path ++ [name] }

/-- src: `App::bucket_items`. -/
def App.bucket_items (app : App) : List BucketItem :=
  app.appObjects.get_bucket_items

/-- src: `App::current_object_items`. -/
def App.current_object_items (app : App) : List ObjectItem :=
  app.appObjects.get_object_items app.current_object_key

/-- src: `App::exists_current_objects`. -/
def App.exists_current_objects (app : App) : Bool :=
  app.appObjects.exists_object_item app.current_object_key

/-- src: `App::exists_current_object_detail`. -/
def App.exists_current_object_detail (app : App) (name : String) : Bool :=
  app.appObjects.exists_object_details (app.current_object_key_with_name name)

/-- src: `App::bucket_list_move_down` — if the listing under the current key
is cached, push an ObjectList page built from it; else emit `LoadObjects` and
set the loading flag. -/
def App.bucket_list_move_down (app : App) : App × List AppEventType :=
  if app.exists_current_objects then
    ({ app with
        pageStack := app.pageStack ++ [Page.objectList (ObjectListPage.new app.current_object_items)] },
      [])
  else
    ({ app with appViewState.isLoading := true }, [AppEventType.loadObjects])

/-- src: the initialize-completion handler of `App` — on success store the
buckets, replace
the Initializing page by the BucketList page; then, when exactly one bucket
resulted, descend automatically (keeping the loading flag), else clear it. -/
def App.complete_init (app : App) (result : Except AppError (List BucketItem)) :
    App × List AppEventType :=
  let step :=
    match result with
    | .ok buckets =>
      let app' := { app with appObjects := app.appObjects.set_bucket_items buckets }
      let page := Page.bucketList (BucketListPage.new app'.bucket_items)
      (({ app' with pageStack := app'.pageStack.dropLast ++ [page] } : App), ([] : List AppEventType))
    | .error e => (app, [AppEventType.notifyError e.msg])
  if step.1.bucket_items.length = 1 then
    let next := step.1.bucket_list_move_down
    (next.1, step.2 ++ next.2)
  else
    ({ step.1 with appViewState.isLoading := false }, step.2)

/-- src: `App::object_list_move_down` — the top page must be an ObjectList
(the source panics otherwise; here the state is returned unchanged). A
selected File descends into the detail page when the detail is cached, else
emits `LoadObject`; a selected Dir pushes the cached listing or emits
`LoadObjects`. -/
def App.object_list_move_down (app : App) : App × List AppEventType :=
  match app.current_page? with
  | some (Page.objectList p) =>
    match p.current_selected_item? with
    | some (ObjectItem.file name _) =>
      if app.exists_current_object_detail name then
        let key := app.current_object_key_with_name name
        match app.appObjects.get_object_detail key, app.appObjects.get_object_versions key with
        | some detail, some versions =>
          ({ app with
              pageStack := app.pageStack ++
                [Page.objectDetail (ObjectDetailPage.new detail versions p.items p.listState)] },
            [])
        | _, _ => (app, [])
      else
        ({ app with appViewState.isLoading := true }, [AppEventType.loadObject])
    | some (ObjectItem.dir _) =>
      if app.exists_current_objects then
        ({ app with
            pageStack := app.pageStack ++
              [Page.objectList (ObjectListPage.new app.current_object_items)] },
          [])
      else
        ({ app with appViewState.isLoading := true }, [AppEventType.loadObjects])
    | none => (app, [])
  | _ => (app, [])

/-- src: `App::object_list_move_up` — the ascend guard: a no-op when the
stack is exactly [BucketList, ObjectList] and only one bucket exists;
otherwise pop the top page. -/
def App.object_list_move_up (app : App) : App :=
  if app.pageStack.length = 2 ∧ app.bucket_items.length = 1 then app
  else { app with pageStack := app.pageStack.dropLast }

/-- src: `App::object_list_back_to_bucket_list` — no-op with a single bucket,
else clear the stack down to the root bucket list. -/
def App.object_list_back_to_bucket_list (app : App) : App :=
  if app.bucket_items.length = 1 then app
  else { app with pageStack := app.pageStack.take 1 }

/-- src: `App::complete_load_objects` — on success the items are stored at
the key derived from the *current* navigation state (the completion event
carries no key), and an ObjectList page over them is pushed; on failure a
`NotifyError` event is emitted; the loading flag is cleared in both cases. -/
def App.complete_load_objects (app : App) (result : Except AppError (List ObjectItem)) :
    App × List AppEventType :=
  let step :=
    match result with
    | .ok items =>
      let app' := { app with
        appObjects := app.appObjects.set_object_items app.current_object_key items }
      (({ app' with
          pageStack := app'.pageStack ++
            [Page.objectList (ObjectListPage.new app'.current_object_items)] } : App),
        ([] : List AppEventType))
    | .error e => (app, [AppEventType.notifyError e.msg])
  ({ step.1 with appViewState.isLoading := false }, step.2)

/-- The outcome of an operation that may terminate the process (Rust
`unwrap` or a panic). -/
inductive ProcOutcome (α : Type) where
  | ok (a : α)
  | panicked
deriving DecidableEq, Repr

/-- src: `App::complete_load_object` — on success the detail and versions are
stored at the tagged `map_key` carried by the completion event, then a detail
page is pushed over the current ObjectList page; the source panics at
`current_page().as_object_list()` when the top page is not an ObjectList,
modelled as process termination (`panicked`); on failure a `NotifyError`
event is emitted; the loading flag is cleared on every surviving path (the
trailing assignment after the match). -/
def App.complete_load_object (app : App)
    (result : Except AppError (FileDetail × List FileVersion × ObjectKey)) :
    ProcOutcome (App × List AppEventType) :=
  let step :=
    match result with
    | .ok (detail, versions, mapKey) =>
      let app' := { app with
        appObjects := app.appObjects.set_object_details mapKey detail versions }
      match app'.current_page? with
      | some (Page.objectList p) =>
        ProcOutcome.ok
          (({ app' with
              pageStack := app'.pageStack ++
                [Page.objectDetail (ObjectDetailPage.new detail versions p.items p.listState)] } : App),
            ([] : List AppEventType))
      | _ => ProcOutcome.panicked
    | .error e => ProcOutcome.ok (app, [AppEventType.notifyError e.msg])
  match step with
  | ProcOutcome.ok (app1, evs) =>
    ProcOutcome.ok ({ app1 with appViewState.isLoading := false }, evs)
  | ProcOutcome.panicked => ProcOutcome.panicked

/-- The numeric content of one progress notification emitted by the download
progress callback: the integer percentage and the number of decimal places
used by the human-readable size formatting. -/
structure ProgressInfo where
  percent : Nat
  decimalPlaces : Nat
deriving DecidableEq, Repr

/-- src: `App::handle_loading_size` — below 10,000,000 bytes the callback is
a no-op (`none`); otherwise each reported `current` yields an Info
notification with `percent = current * 100 / total` (integer division) and
sizes formatted with 1 decimal place when the total exceeds 1,000,000,000
and 0 otherwise. -/
def handle_loading_size (totalSize : Nat) (current : Nat) : Option ProgressInfo :=
  if totalSize < 10000000 then none
  else
    some
      { percent := current * 100 / totalSize
        decimalPlaces := if totalSize > 1000000000 then 1 else 0 }

/-- src: `App::save_error` — resolves the error-log path and appends the
error; `unwrap` on either failure terminates the process. The collaborators
(`Config::error_log_path`, `file::save_error_log`, both outside src/) are
passed in as their results; on success the message is appended to the
persistent log. -/
def save_error (pathResult : Except String String) (writeResult : String → Except String Unit)
    (log : List String) (e : AppError) : ProcOutcome (List String) :=
  match pathResult with
  | .error _ => ProcOutcome.panicked
  | .ok path =>
    match writeResult path with
    | .error _ => ProcOutcome.panicked
    | .ok _ => ProcOutcome.ok (log ++ [e.msg])

/-- src: `App::error_notification` — persist the error first (fatal on
failure), then overwrite the notification slot with `Error(msg)`. -/
def App.error_notification (app : App) (e : AppError) (pathResult : Except String String)
    (writeResult : String → Except String Unit) : ProcOutcome App :=
  match save_error pathResult writeResult app.errorLog e with
  | ProcOutcome.panicked => ProcOutcome.panicked
  | ProcOutcome.ok log =>
    ProcOutcome.ok
      { app with errorLog := log, appViewState.notification := Notification.error e.msg }

/-! ## Helper lemmas -/

theorem strContains_empty_needle (h : String) : strContains h ⟨[]⟩ = true := by
  simp only [strContains, decide_eq_true_eq]
  exact List.nil_infix

theorem filterIndices_nil (items : List BucketItem) :
    filterIndices items [] = List.range items.length := by
  unfold filterIndices
  rw [List.filter_eq_self.mpr fun a _ => strContains_empty_needle _]
  exact List.enum_map_fst items

theorem filterIndices_pairwise (items : List BucketItem) (input : List Char) :
    List.Pairwise (· < ·) (filterIndices items input) := by
  have h1 : List.Sublist (items.enum.filter fun p => strContains p.2.name ⟨input⟩) items.enum :=
    List.filter_sublist _
  have h2 := h1.map fun p : Nat × BucketItem => p.1
  rw [List.enum_map_fst items] at h2
  exact (List.pairwise_lt_range items.length).sublist h2

theorem assocFind?_cons_self {β : Type} (l : List (ObjectKey × β)) (k : ObjectKey) (v : β) :
    assocFind? ((k, v) :: l) k = some v := by
  simp [assocFind?, List.find?_cons]

theorem get_set_object_items (c : AppObjects) (k : ObjectKey) (items : List ObjectItem) :
    (c.set_object_items k items).get_object_items k = items := by
  simp [AppObjects.get_object_items, AppObjects.set_object_items, assocFind?_cons_self]

theorem get_set_object_details (c : AppObjects) (k : ObjectKey) (d : FileDetail)
    (vs : List FileVersion) :
    (c.set_object_details k d vs).get_object_detail k = some d ∧
      (c.set_object_details k d vs).get_object_versions k = some vs := by
  simp [AppObjects.get_object_detail, AppObjects.get_object_versions,
    AppObjects.set_object_details, assocFind?_cons_self]

/-! ## C4 — download progress callback -/

/-- C4: the download progress callback is a no-op for every total size
strictly below 10,000,000 bytes; at or above the threshold it reports
`percent = current * 100 / total` by exact integer division (5,000,000 of
10,000,000 gives 50), and the human-readable sizes use 1 decimal place when
the total exceeds 1,000,000,000 bytes and 0 otherwise. -/
theorem c4_progress_callback :
    (∀ totalSize current, totalSize < 10000000 →
      handle_loading_size totalSize current = none) ∧
    (∀ totalSize current, 10000000 ≤ totalSize →
      handle_loading_size totalSize current =
        some { percent := current * 100 / totalSize
               decimalPlaces := if totalSize > 1000000000 then 1 else 0 }) ∧
    handle_loading_size 10000000 5000000 = some { percent := 50, decimalPlaces := 0 } ∧
    handle_loading_size 2000000000 1000000000 = some { percent := 50, decimalPlaces := 1 } := by
  refine ⟨?_, ?_, ?_, ?_⟩
  · intro t c h
    simp [handle_loading_size, h]
  · intro t c h
    simp [handle_loading_size, Nat.not_lt.mpr h]
  · rfl
  · rfl

/-- Witness for C4 at concrete inputs. -/
theorem c4_progress_callback_witness :
    handle_loading_size 9999999 123 = none ∧
    handle_loading_size 10000000 5000000 = some { percent := 50, decimalPlaces := 0 } :=
  ⟨c4_progress_callback.1 9999999 123 (by norm_num), c4_progress_callback.2.2.1⟩

/-! ## C8 — log persistence failure is fatal -/

/-- C8: if, while handling an error notification, resolving the error-log
path fails, or appending to the persistent error log fails, the process
terminates rather than surfacing another notification. -/
theorem c8_log_failure_fatal (app : App) (e : AppError) (msg wmsg : String)
    (w : String → Except String Unit) (path : String) :
    app.error_notification e (Except.error msg) w = ProcOutcome.panicked ∧
    app.error_notification e (Except.ok path) (fun _ => Except.error wmsg) =
      ProcOutcome.panicked := by
  constructor <;> simp [App.error_notification, save_error]

/-! ## C5 — the ascend guard -/

/-- C5: ascend from an ObjectList page (`object_list_move_up`) is a no-op
exactly when the stack height is 2 and exactly one bucket exists; in every
other state it pops the top page. -/
theorem c5_ascend_guard (app : App) (h : 1 ≤ app.pageStack.length) :
    (app.object_list_move_up = app ↔
      (app.pageStack.length = 2 ∧ app.bucket_items.length = 1)) ∧
    (¬(app.pageStack.length = 2 ∧ app.bucket_items.length = 1) →
      app.object_list_move_up = { app with pageStack := app.pageStack.dropLast }) := by
  constructor
  · constructor
    · intro heq
      by_contra hg
      rw [App.object_list_move_up, if_neg hg] at heq
      have hstack := congrArg App.pageStack heq
      have hlen := congrArg List.length hstack
      rw [List.length_dropLast] at hlen
      omega
    · intro hg
      rw [App.object_list_move_up, if_pos hg]
  · intro hg
    rw [App.object_list_move_up, if_neg hg]

/-- Witness for C5: two buckets, stack `[BucketList, ObjectList]` — the call
pops to `[BucketList]`. -/
def exAppC5 : App :=
  { appViewState := AppViewState.new 0 0
    pageStack := [Page.bucketList (BucketListPage.new [⟨"b1"⟩, ⟨"b2"⟩]),
      Page.objectList (ObjectListPage.new [])]
    appObjects := { bucketItems := [⟨"b1"⟩, ⟨"b2"⟩], objectItems := [], objectDetails := [] }
    errorLog := [] }

theorem c5_ascend_guard_witness :
    exAppC5.object_list_move_up = { exAppC5 with pageStack := exAppC5.pageStack.dropLast } :=
  (c5_ascend_guard exAppC5 (by decide)).2 (by decide)

/-! ## C3 — failed load-children completion -/

/-- C3: a failed load-children completion leaves the page stack and the
cache exactly as they were, clears the loading flag, and emits the
`NotifyError` event; handling that event (with the log collaborators
succeeding) appends the message to the persistent error log and overwrites
the notification slot with `Error(msg)`. -/
theorem c3_load_objects_failure (app : App) (msg path : String) :
    ((app.complete_load_objects (Except.error ⟨msg⟩)).1.pageStack = app.pageStack) ∧
    ((app.complete_load_objects (Except.error ⟨msg⟩)).1.appObjects = app.appObjects) ∧
    ((app.complete_load_objects (Except.error ⟨msg⟩)).1.appViewState.isLoading = false) ∧
    ((app.complete_load_objects (Except.error ⟨msg⟩)).2 = [AppEventType.notifyError msg]) ∧
    ((app.complete_load_objects (Except.error ⟨msg⟩)).1.error_notification ⟨msg⟩
        (Except.ok path) (fun _ => Except.ok ()) =
      ProcOutcome.ok
        { (app.complete_load_objects (Except.error ⟨msg⟩)).1 with
            errorLog := (app.complete_load_objects (Except.error ⟨msg⟩)).1.errorLog ++ [msg]
            appViewState.notification := Notification.error msg }) := by
  refine ⟨rfl, rfl, rfl, rfl, ?_⟩
  simp [App.error_notification, save_error]

/-! ## C6 — current prefix derivation -/

/-- The claim's description of the prefix: each selected Dir name from bottom
to top, each followed by `/`. -/
def joinSlash : List String → String
  | [] => ""
  | s :: rest => s ++ "/" ++ joinSlash rest

theorem foldl_push_str (l : List String) (init : String) :
    l.foldl (fun acc s => acc ++ s ++ "/") init = init ++ joinSlash l := by
  induction l generalizing init with
  | nil =>
    simp [joinSlash]
  | cons h t ih =>
    simp only [List.foldl_cons, joinSlash, ih]
    apply String.ext
    simp [String.data_append, List.append_assoc]

/-- C6: the current prefix is the concatenation, bottom to top, of the name
of each ObjectList page's selected entry when that entry is a Dir, each
followed by `/`; for selected segments `["a","b"]` it is `"a/b/"`, and it is
`""` when no segment is selected. -/
theorem c6_prefix_derivation (app : App) :
    app.current_object_prefix_str = joinSlash app.current_path ∧
    (app.current_path = ["a", "b"] → app.current_object_prefix_str = "a/b/") ∧
    (app.current_path = [] → app.current_object_prefix_str = "") := by
  have hmain : app.current_object_prefix_str = joinSlash app.current_path := by
    unfold App.current_object_prefix_str
    rw [foldl_push_str]
    apply String.ext
    simp [String.data_append]
  refine ⟨hmain, ?_, ?_⟩
  · intro hpath
    rw [hmain, hpath]
    rfl
  · intro hpath
    rw [hmain, hpath]
    rfl

/-- Witness for C6: a stack whose two ObjectList pages select Dirs `a`, `b`. -/
def exAppC6 : App :=
  { appViewState := AppViewState.new 0 0
    pageStack := [Page.bucketList (BucketListPage.new [⟨"bkt"⟩]),
      Page.objectList (ObjectListPage.new [ObjectItem.dir "a"]),
      Page.objectList (ObjectListPage.new [ObjectItem.dir "b"])]
    appObjects := { bucketItems := [⟨"bkt"⟩], objectItems := [], objectDetails := [] }
    errorLog := [] }

theorem c6_prefix_derivation_witness : exAppC6.current_object_prefix_str = "a/b/" :=
  (c6_prefix_derivation exAppC6).2.1 (by decide)

/-! ## C7 — cached vs uncached descend -/

/-- C7: descending into a bucket or a Dir whose listing is cached pushes the
new ObjectList page synchronously, emits no command (so no completion event
ever arrives for it) and leaves the loading flag — and everything else —
unchanged; descending into an uncached one pushes nothing, emits a
`LoadObjects` command and sets the loading flag. -/
theorem c7_descend_cache (app : App) (p : ObjectListPage) (name : String) :
    (app.exists_current_objects = true →
      app.bucket_list_move_down =
        ({ app with pageStack := app.pageStack ++
            [Page.objectList (ObjectListPage.new app.current_object_items)] }, [])) ∧
    (app.exists_current_objects = false →
      app.bucket_list_move_down =
        ({ app with appViewState.isLoading := true }, [AppEventType.loadObjects])) ∧
    (app.current_page? = some (Page.objectList p) →
      p.current_selected_item? = some (ObjectItem.dir name) →
      (app.exists_current_objects = true →
        app.object_list_move_down =
          ({ app with pageStack := app.pageStack ++
              [Page.objectList (ObjectListPage.new app.current_object_items)] }, [])) ∧
      (app.exists_current_objects = false →
        app.object_list_move_down =
          ({ app with appViewState.isLoading := true }, [AppEventType.loadObjects]))) := by
  refine ⟨?_, ?_, fun hpage hsel => ⟨?_, ?_⟩⟩
  · intro hc
    simp [App.bucket_list_move_down, hc]
  · intro hc
    simp [App.bucket_list_move_down, hc]
  · intro hc
    simp [App.object_list_move_down, hpage, hsel, hc]
  · intro hc
    simp [App.object_list_move_down, hpage, hsel, hc]

/-- Witness for C7: one bucket whose root listing is cached — the descend
pushes synchronously with no events. -/
def exAppC7 : App :=
  { appViewState := AppViewState.new 0 0
    pageStack := [Page.bucketList (BucketListPage.new [⟨"b"⟩])]
    appObjects := { bucketItems := [⟨"b"⟩]
                    objectItems := [(⟨"b", []⟩, [ObjectItem.file "f" 1])]
                    objectDetails := [] }
    errorLog := [] }

theorem c7_descend_cache_witness :
    exAppC7.bucket_list_move_down =
      ({ exAppC7 with pageStack := exAppC7.pageStack ++
          [Page.objectList (ObjectListPage.new exAppC7.current_object_items)] }, []) :=
  (c7_descend_cache exAppC7 (ObjectListPage.new []) "x").1 (by decide)

/-! ## C2 — where load completions are written -/

/-- The app state of the C2 counterexample: the load-children command was
issued while bucket `b1` was selected (originating key `(b1, [])`); the user
has since moved the selection to `b2`. -/
def exAppC2 : App :=
  { appViewState := AppViewState.new 0 0
    pageStack := [Page.bucketList
      { bucketItems := [⟨"b1"⟩, ⟨"b2"⟩]
        filteredIndices := [0, 1]
        viewState := BLViewState.default
        listState := { selected := 1, offset := 0, total := 2, height := 0 }
        filterInputState := { input := [] } }]
    appObjects := { bucketItems := [⟨"b1"⟩, ⟨"b2"⟩], objectItems := [], objectDetails := [] }
    errorLog := [] }

/-- C2 counterexample: a successful load-children completion is *not* written
at the key that originated the command — the `CompleteLoadObjects` event
carries no key, and with the selection moved to `b2` the payload is cached
under `(b2, [])` while the originating key `(b1, [])` stays unset. -/
theorem c2_counterexample :
    ((exAppC2.complete_load_objects (Except.ok [ObjectItem.file "f" 1])).1.appObjects.get_object_items
        ⟨"b2", []⟩ = [ObjectItem.file "f" 1]) ∧
    ((exAppC2.complete_load_objects (Except.ok [ObjectItem.file "f" 1])).1.appObjects.exists_object_item
        ⟨"b1", []⟩ = false) := by
  decide

/-- C2 amended: a successful load-detail completion writes the payload into
the cache at the `map_key` the event is tagged with, and only then is the
detail page pushed: when the top page is still an ObjectList (any ObjectList,
even one the user navigated to in the meantime) the resulting state holds the
cache entry at `map_key`, the detail page built from the payload pushed on
top, and the loading flag cleared; when the user has navigated so that the
top page is no longer an ObjectList, the process panics (after the cache
write). A successful load-children completion carries no key and writes the
payload at the navigation key derived from the *current* page stack at
completion time, then pushes the ObjectList page built from the just-written
cache entry. -/
theorem c2_amended (app : App) (detail : FileDetail) (versions : List FileVersion)
    (mapKey : ObjectKey) (items : List ObjectItem) (p : ObjectListPage) :
    (app.current_page? = some (Page.objectList p) →
      app.complete_load_object (Except.ok (detail, versions, mapKey)) =
        ProcOutcome.ok
          ({ app with
              appObjects := app.appObjects.set_object_details mapKey detail versions
              appViewState.isLoading := false
              pageStack := app.pageStack ++
                [Page.objectDetail (ObjectDetailPage.new detail versions p.items p.listState)] },
            [])) ∧
    ((∀ q : ObjectListPage, app.current_page? ≠ some (Page.objectList q)) →
      app.complete_load_object (Except.ok (detail, versions, mapKey)) =
        ProcOutcome.panicked) ∧
    ((app.complete_load_objects (Except.ok items)).1.appObjects.get_object_items
        app.current_object_key = items) ∧
    ((app.complete_load_objects (Except.ok items)).1.pageStack =
      app.pageStack ++ [Page.objectList (ObjectListPage.new items)]) := by
  refine ⟨?_, ?_, ?_, ?_⟩
  · intro hpage
    have hpg : app.pageStack.getLast? = some (Page.objectList p) := hpage
    simp [App.complete_load_object, App.current_page?, hpg]
  · intro hpage
    rcases hpg : app.pageStack.getLast? with _ | pg
    · simp [App.complete_load_object, App.current_page?, hpg]
    · cases pg <;>
        first
          | exact absurd hpg (hpage _)
          | simp [App.complete_load_object, App.current_page?, hpg]
  · show (app.appObjects.set_object_items app.current_object_key items).get_object_items
      app.current_object_key = items
    exact get_set_object_items app.appObjects app.current_object_key items
  · show app.pageStack ++ [Page.objectList (ObjectListPage.new
      ((app.appObjects.set_object_items app.current_object_key items).get_object_items
        app.current_object_key))] = _
    rw [get_set_object_items]

/-- Witness for the amended C2: a concrete stack whose top is an ObjectList —
the completion writes the detail at the tagged key and then pushes the detail
page, clearing the loading flag. -/
def exAppC2b : App :=
  { appViewState := AppViewState.new 0 0
    pageStack := [Page.bucketList (BucketListPage.new [⟨"b"⟩]),
      Page.objectList (ObjectListPage.new [ObjectItem.file "f" 1])]
    appObjects := { bucketItems := [⟨"b"⟩], objectItems := [], objectDetails := [] }
    errorLog := [] }

theorem c2_amended_witness :
    exAppC2b.complete_load_object (Except.ok (⟨"f", 1⟩, [], ⟨"b", ["f"]⟩)) =
      ProcOutcome.ok
        ({ exAppC2b with
            appObjects := exAppC2b.appObjects.set_object_details ⟨"b", ["f"]⟩ ⟨"f", 1⟩ []
            appViewState.isLoading := false
            pageStack := exAppC2b.pageStack ++
              [Page.objectDetail (ObjectDetailPage.new ⟨"f", 1⟩ []
                (ObjectListPage.new [ObjectItem.file "f" 1]).items
                (ObjectListPage.new [ObjectItem.file "f" 1]).listState)] },
          []) :=
  (c2_amended exAppC2b ⟨"f", 1⟩ [] ⟨"b", ["f"]⟩ []
    (ObjectListPage.new [ObjectItem.file "f" 1])).1 (by decide)

/-! ## C1 — single-bucket initialization -/

/-- C1 counterexample: starting from the fresh app (stack `[Initializing]`,
empty cache), a successful initialization with exactly one bucket leaves the
BucketList page as the only — and therefore visible top — page of the stack
while the automatically triggered `LoadObjects` completion is pending and the
loading flag is still true; the page popped was the Initializing one, not the
BucketList page. -/
theorem c1_counterexample :
    (((App.mk_new 0 0).complete_init (Except.ok [⟨"b"⟩])).1.pageStack =
        [Page.bucketList (BucketListPage.new [⟨"b"⟩])]) ∧
    (((App.mk_new 0 0).complete_init (Except.ok [⟨"b"⟩])).1.current_page? =
        some (Page.bucketList (BucketListPage.new [⟨"b"⟩]))) ∧
    (((App.mk_new 0 0).complete_init (Except.ok [⟨"b"⟩])).2 =
        [AppEventType.loadObjects]) ∧
    (((App.mk_new 0 0).complete_init (Except.ok [⟨"b"⟩])).1.appViewState.isLoading =
        true) := by
  decide

/-- C1 amended: if initialization completes with exactly one bucket (and its
listing is not cached), the Initializing page is popped and the BucketList
page is pushed in its place; a descend into that bucket is triggered
automatically, emitting `LoadObjects` with the loading flag left true — and
during that pending window the BucketList page *is* the visible top page (the
ObjectList page is only pushed on top of it by the completion). -/
theorem c1_amended (app : App) (b : BucketItem)
    (hstack : app.pageStack = [Page.initializing])
    (hcache : app.appObjects.objectItems = []) :
    ((app.complete_init (Except.ok [b])).1.pageStack =
        [Page.bucketList (BucketListPage.new [b])]) ∧
    ((app.complete_init (Except.ok [b])).2 = [AppEventType.loadObjects]) ∧
    ((app.complete_init (Except.ok [b])).1.appViewState.isLoading = true) := by
  obtain ⟨vs, stack, ⟨bi, oi, od⟩, log⟩ := app
  simp only at hstack hcache
  subst hstack
  subst hcache
  refine ⟨?_, ?_, ?_⟩ <;>
    simp [App.complete_init, App.bucket_list_move_down, App.bucket_items,
      AppObjects.get_bucket_items, AppObjects.set_bucket_items, App.exists_current_objects,
      AppObjects.exists_object_item, assocFind?]

/-- Witness for the amended C1 at the fresh app and one concrete bucket. -/
theorem c1_amended_witness :
    ((App.mk_new 0 0).complete_init (Except.ok [⟨"b"⟩])).2 =
      [AppEventType.loadObjects] :=
  (c1_amended (App.mk_new 0 0) ⟨"b"⟩ (by decide) (by decide)).2.1

/-! ## C10 — version selection stays in range -/

theorem vts_apply_op_helpLines (s : VersionTabState) (op : VOp) :
    (s.apply_op op).helpLines = s.helpLines := by
  cases op <;>
    simp only [VersionTabState.apply_op, VersionTabState.select_next,
      VersionTabState.select_prev, VersionTabState.select_first,
      VersionTabState.select_last] <;>
    split_ifs <;> rfl

theorem vts_apply_op_selected_lt (s : VersionTabState) (op : VOp)
    (h : s.selected < s.helpLines.length) :
    (s.apply_op op).selected < s.helpLines.length := by
  cases op with
  | next =>
    simp only [VersionTabState.apply_op, VersionTabState.select_next]
    split_ifs with h1 h2
    · exact h
    · simp only
      omega
    · simp only
      omega
  | prev =>
    simp only [VersionTabState.apply_op, VersionTabState.select_prev]
    split_ifs with h1 h2
    · exact h
    · simp only
      omega
    · simp only
      omega
  | first =>
    simp only [VersionTabState.apply_op, VersionTabState.select_first]
    omega
  | last =>
    simp only [VersionTabState.apply_op, VersionTabState.select_last]
    omega

theorem vts_apply_ops_selected_lt (ops : List VOp) (s : VersionTabState)
    (h : s.selected < s.helpLines.length) :
    (s.apply_ops ops).selected < s.helpLines.length := by
  induction ops generalizing s with
  | nil => exact h
  | cons op rest ih =>
    have h1 := vts_apply_op_selected_lt s op h
    have h2 := vts_apply_op_helpLines s op
    have := ih (s.apply_op op) (by rw [h2]; exact h1)
    rw [h2] at this
    simpa [VersionTabState.apply_ops, List.foldl_cons] using this

/-- C10: for an ObjectDetailPage constructed with a non-empty versions list,
the selected version index stays within `[0, versions.length - 1]` under
every sequence of select operations; `select_next` is a no-op at the last
version and `select_prev` at the first; and the selected version id resolves
to `none` whenever the Detail tab is active. -/
theorem c10_version_selection_invariant (d : FileDetail) (versions : List FileVersion)
    (items : List ObjectItem) (ls : ScrollListState) (ops : List VOp)
    (h : versions ≠ []) :
    (((ObjectDetailPage.new d versions items ls).versionTabState.apply_ops ops).selected ≤
      versions.length - 1) ∧
    (∀ s : VersionTabState, s.selected = s.helpLines.length - 1 → s.select_next = s) ∧
    (∀ s : VersionTabState, s.selected = 0 → s.select_prev = s) ∧
    (∀ q : ObjectDetailPage, q.tab = Tab.detail →
      q.current_selected_version_id = Option.none) := by
  refine ⟨?_, ?_, ?_, ?_⟩
  · have h0 : (VersionTabState.new versions).selected <
        (VersionTabState.new versions).helpLines.length := by
      simp [VersionTabState.new, build_help_lines]
      exact List.length_pos.mpr h
    have hlt := vts_apply_ops_selected_lt ops (VersionTabState.new versions) h0
    have hlen : (VersionTabState.new versions).helpLines.length = versions.length := by
      simp [VersionTabState.new, build_help_lines]
    rw [hlen] at hlt
    have : (ObjectDetailPage.new d versions items ls).versionTabState =
        VersionTabState.new versions := rfl
    rw [this]
    omega
  · intro s hs
    rw [VersionTabState.select_next, if_pos (by omega)]
  · intro s hs
    rw [VersionTabState.select_prev, if_pos hs]
  · intro q hq
    simp [ObjectDetailPage.current_selected_version_id, hq]

/-- Witness for C10 at one version and one `select_next`. -/
theorem c10_version_selection_invariant_witness :
    (((ObjectDetailPage.new ⟨"f", 1⟩ [⟨"v", 1, true⟩] [] (ScrollListState.new 0)).versionTabState.apply_ops
        [VOp.next, VOp.last, VOp.prev]).selected ≤ 0) :=
  (c10_version_selection_invariant ⟨"f", 1⟩ [⟨"v", 1, true⟩] [] (ScrollListState.new 0)
    [VOp.next, VOp.last, VOp.prev] (by decide)).1

/-! ## C9 — bucket list filter invariant -/

/-- The C9 invariant: `filtered_indices` is exactly the recomputed index
list for the current filter input, the list-state total tracks its length,
and a positive total bounds the selection. -/
def BLInv (items : List BucketItem) (p : BucketListPage) : Prop :=
  p.bucketItems = items ∧
  p.filteredIndices = filterIndices p.bucketItems p.filterInputState.input ∧
  p.listState.total = p.filteredIndices.length ∧
  (0 < p.listState.total → p.listState.selected < p.listState.total)

theorem sls_total_next (s : ScrollListState) : s.select_next.total = s.total := by
  unfold ScrollListState.select_next
  split_ifs <;> rfl

theorem sls_total_prev (s : ScrollListState) : s.select_prev.total = s.total := by
  unfold ScrollListState.select_prev
  split_ifs <;> rfl

theorem sls_total_first (s : ScrollListState) : s.select_first.total = s.total := rfl

theorem sls_total_last (s : ScrollListState) : s.select_last.total = s.total := rfl

theorem sls_total_next_page (s : ScrollListState) : s.select_next_page.total = s.total := by
  unfold ScrollListState.select_next_page
  split_ifs <;> rfl

theorem sls_total_prev_page (s : ScrollListState) : s.select_prev_page.total = s.total := rfl

theorem sls_bnd_next (s : ScrollListState) (_h : 0 < s.total → s.selected < s.total) :
    0 < s.select_next.total → s.select_next.selected < s.select_next.total := by
  unfold ScrollListState.select_next
  split_ifs <;> first | omega | (dsimp only; omega)

theorem sls_bnd_prev (s : ScrollListState) (h : 0 < s.total → s.selected < s.total) :
    0 < s.select_prev.total → s.select_prev.selected < s.select_prev.total := by
  unfold ScrollListState.select_prev
  split_ifs <;> first | omega | (dsimp only; omega)

theorem sls_bnd_first (s : ScrollListState) (_h : 0 < s.total → s.selected < s.total) :
    0 < s.select_first.total → s.select_first.selected < s.select_first.total := by
  unfold ScrollListState.select_first
  dsimp only
  omega

theorem sls_bnd_last (s : ScrollListState) (_h : 0 < s.total → s.selected < s.total) :
    0 < s.select_last.total → s.select_last.selected < s.select_last.total := by
  unfold ScrollListState.select_last
  dsimp only
  omega

theorem sls_bnd_next_page (s : ScrollListState) (_h : 0 < s.total → s.selected < s.total) :
    0 < s.select_next_page.total → s.select_next_page.selected < s.select_next_page.total := by
  unfold ScrollListState.select_next_page
  split_ifs <;> first | omega | (dsimp only; omega)

theorem sls_bnd_prev_page (s : ScrollListState) (_h : 0 < s.total → s.selected < s.total) :
    0 < s.select_prev_page.total → s.select_prev_page.selected < s.select_prev_page.total := by
  unfold ScrollListState.select_prev_page
  dsimp only
  omega

theorem BLInv_update (items : List BucketItem) (p : BucketListPage)
    (hitems : p.bucketItems = items) : BLInv items p.update_filtered_indices := by
  refine ⟨hitems, rfl, rfl, fun h => h⟩

theorem BLInv_listState_set (items : List BucketItem) (p : BucketListPage)
    (h : BLInv items p) (s : ScrollListState) (h1 : s.total = p.listState.total)
    (h2 : (0 < p.listState.total → p.listState.selected < p.listState.total) →
      0 < s.total → s.selected < s.total) :
    BLInv items { p with listState := s } := by
  obtain ⟨hitems, hfi, htot, hsel⟩ := h
  refine ⟨hitems, hfi, ?_, ?_⟩
  · show s.total = _
    rw [h1]
    exact htot
  · show 0 < s.total → s.selected < s.total
    exact h2 hsel

theorem BLInv_handle_key_default_char (items : List BucketItem) (p : BucketListPage)
    (c : Char) (h : BLInv items p) : BLInv items (p.handle_key_default_char c).1 := by
  unfold BucketListPage.handle_key_default_char
  by_cases h1 : c = 'q'
  · rw [if_pos h1]
    exact h
  rw [if_neg h1]
  by_cases h2 : c = 'l'
  · rw [if_pos h2]
    split_ifs <;> exact h
  rw [if_neg h2]
  by_cases h3 : c = 'j'
  · rw [if_pos h3]
    split_ifs
    · exact BLInv_listState_set items p h _ (sls_total_next _) (fun hb => sls_bnd_next _ hb)
    · exact h
  rw [if_neg h3]
  by_cases h4 : c = 'k'
  · rw [if_pos h4]
    split_ifs
    · exact BLInv_listState_set items p h _ (sls_total_prev _) (fun hb => sls_bnd_prev _ hb)
    · exact h
  rw [if_neg h4]
  by_cases h5 : c = 'g'
  · rw [if_pos h5]
    split_ifs
    · exact BLInv_listState_set items p h _ (sls_total_first _) (fun hb => sls_bnd_first _ hb)
    · exact h
  rw [if_neg h5]
  by_cases h6 : c = 'G'
  · rw [if_pos h6]
    split_ifs
    · exact BLInv_listState_set items p h _ (sls_total_last _) (fun hb => sls_bnd_last _ hb)
    · exact h
  rw [if_neg h6]
  by_cases h7 : c = 'f'
  · rw [if_pos h7]
    split_ifs
    · exact BLInv_listState_set items p h _ (sls_total_next_page _)
        (fun hb => sls_bnd_next_page _ hb)
    · exact h
  rw [if_neg h7]
  by_cases h8 : c = 'b'
  · rw [if_pos h8]
    split_ifs
    · exact BLInv_listState_set items p h _ (sls_total_prev_page _)
        (fun hb => sls_bnd_prev_page _ hb)
    · exact h
  rw [if_neg h8]
  by_cases h9 : c = 'x'
  · rw [if_pos h9]
    split_ifs <;> exact h
  rw [if_neg h9]
  by_cases h10 : c = '/'
  · rw [if_pos h10]
    exact ⟨h.1, h.2.1, h.2.2.1, h.2.2.2⟩
  rw [if_neg h10]
  by_cases h11 : c = '?'
  · rw [if_pos h11]
    exact h
  rw [if_neg h11]
  exact h

theorem BLInv_handle_key (items : List BucketItem) (p : BucketListPage) (k : Key)
    (h : BLInv items p) : BLInv items (p.handle_key k).1 := by
  obtain ⟨hitems, hfi, htot, hsel⟩ := h
  have hp : BLInv items p := ⟨hitems, hfi, htot, hsel⟩
  have hupd : ∀ q : BucketListPage, q.bucketItems = items →
      BLInv items q.update_filtered_indices := fun q hq => BLInv_update items q hq
  rcases hv : p.viewState
  case default =>
    cases k with
    | esc =>
      simp only [BucketListPage.handle_key, hv, BucketListPage.handle_key_default]
      split_ifs with h1
      · exact hupd _ hitems
      · exact hp
    | enter =>
      simp only [BucketListPage.handle_key, hv, BucketListPage.handle_key_default]
      exact hp
    | backspace =>
      simp only [BucketListPage.handle_key, hv, BucketListPage.handle_key_default]
      exact hp
    | other =>
      simp only [BucketListPage.handle_key, hv, BucketListPage.handle_key_default]
      exact hp
    | char c =>
      simp only [BucketListPage.handle_key, hv, BucketListPage.handle_key_default]
      exact BLInv_handle_key_default_char items p c hp
  case filterDialog =>
    cases k with
    | esc =>
      simp only [BucketListPage.handle_key, hv, BucketListPage.handle_key_filter]
      exact hupd _ hitems
    | enter =>
      simp only [BucketListPage.handle_key, hv, BucketListPage.handle_key_filter]
      exact hupd _ hitems
    | backspace =>
      simp only [BucketListPage.handle_key, hv, BucketListPage.handle_key_filter]
      exact hupd _ hitems
    | other =>
      simp only [BucketListPage.handle_key, hv, BucketListPage.handle_key_filter]
      exact hupd _ hitems
    | char c =>
      simp only [BucketListPage.handle_key, hv, BucketListPage.handle_key_filter]
      split_ifs
      · exact hp
      · exact hupd _ hitems

theorem BLInv_new (items : List BucketItem) : BLInv items (BucketListPage.new items) := by
  refine ⟨rfl, ?_, ?_, fun h => h⟩
  · show List.range items.length = filterIndices items []
    exact (filterIndices_nil items).symm
  · show items.length = (List.range items.length).length
    rw [List.length_range]

theorem BLInv_apply_keys (items : List BucketItem) (keys : List Key) (p : BucketListPage)
    (h : BLInv items p) : BLInv items (p.apply_keys keys) := by
  induction keys generalizing p with
  | nil => exact h
  | cons k ks ih => exact ih ((p.handle_key k).1) (BLInv_handle_key items p k h)

/-- C9: after construction and after every sequence of key events, the bucket
list page's `filtered_indices` is exactly the (strictly increasing) list of
indices into `bucket_items` whose name contains the current filter input —
all indices for the empty input, since the recomputation also covers the
initial state — and whenever it is non-empty the selection is a valid index
into it (every filter change resets the selection through a fresh list
state). -/
theorem c9_bucket_filter_invariant (items : List BucketItem) (keys : List Key) :
    (((BucketListPage.new items).apply_keys keys).filteredIndices =
      filterIndices items
        ((BucketListPage.new items).apply_keys keys).filterInputState.input) ∧
    List.Pairwise (· < ·) ((BucketListPage.new items).apply_keys keys).filteredIndices ∧
    (((BucketListPage.new items).apply_keys keys).filteredIndices ≠ [] →
      ((BucketListPage.new items).apply_keys keys).listState.selected <
        ((BucketListPage.new items).apply_keys keys).filteredIndices.length) := by
  obtain ⟨hitems, hfi, htot, hsel⟩ :=
    BLInv_apply_keys items keys (BucketListPage.new items) (BLInv_new items)
  refine ⟨by rw [hfi, hitems], ?_, ?_⟩
  · rw [hfi]
    exact filterIndices_pairwise _ _
  · intro hne
    have hlen : 0 < ((BucketListPage.new items).apply_keys keys).filteredIndices.length :=
      List.length_pos.mpr hne
    rw [← htot]
    exact hsel (htot ▸ hlen)

/-- Witness for C9: one bucket, pressing `j` then opening the filter and
typing a character. -/
theorem c9_bucket_filter_invariant_witness :
    ((BucketListPage.new [⟨"ab"⟩]).apply_keys
        [Key.char 'j', Key.char '/', Key.char 'a']).listState.selected <
      ((BucketListPage.new [⟨"ab"⟩]).apply_keys
        [Key.char 'j', Key.char '/', Key.char 'a']).filteredIndices.length :=
  (c9_bucket_filter_invariant [⟨"ab"⟩] [Key.char 'j', Key.char '/', Key.char 'a']).2.2
    (by decide)
